import Mathlib

/-!
Shallow embedding of `models.py` from the db-development repository: an
SQLModel schema for a fitness tracker (User, WorkoutType, Exercise,
WorkoutSession, ExerciseLog) together with the two example functions
`query_workout_type_table` and `create_workout_session`.

Times (`datetime.utcnow()` readings) are modelled as rationals (seconds);
the clock is a function `Nat → ℚ` from call index to reading, threaded
through every operation by a call counter, so that monotonicity of the
wall clock is an explicit hypothesis where a claim needs it.

`create_workout_session` is modelled as a little transactional program (a
list of staging operations followed by a single commit) interpreted over a
persisted/staged pair of database states, mirroring the ORM session whose
`add`/`flush` calls only stage rows and whose final `commit()` persists
them; aborting at any prefix rolls back the staged rows.
-/

namespace DbDev

/-- Wall-clock readings (seconds since the epoch), as exact rationals. -/
abbrev Time := ℚ

/-- Python `int(x)` on a rational: truncation toward zero. -/
def pyInt (q : ℚ) : Int := if 0 ≤ q then ⌊q⌋ else ⌈q⌉

/-- `User` table from models.py. Shared BaseModel timestamp columns are
inlined; both are populated by `default_factory=datetime.utcnow` at
creation, so they are modelled as total fields. -/
structure User where
  userId : Option Nat
  username : String
  email : String
  passwordHash : String
  firstName : Option String
  lastName : Option String
  createdTimestamp : Time
  lastEditedTimestamp : Time
deriving DecidableEq

/-- `WorkoutType` table from models.py. -/
structure WorkoutType where
  workoutTypeId : Option Nat
  workoutName : String
  muscleGroupTargeted : String
  categoryType : Option String
  description : Option String
  difficultyLevel : Option String
  createdTimestamp : Time
  lastEditedTimestamp : Time
deriving DecidableEq

/-- `Exercise` table from models.py. `workout_type_id` is declared
`Optional[int] = Field(foreign_key=...)` in the source, hence nullable. -/
structure Exercise where
  exerciseId : Option Nat
  workoutTypeId : Option Nat
  exerciseName : String
  description : Option String
  equipmentRequired : Option String
  primaryMuscleGroup : Option String
  difficultyLevel : Option String
  caloriesBurnedPerMinute : Option ℚ
  muscleGroupsSecondary : Option String
  videoTutorialLink : Option String
  imageUrl : Option String
  createdTimestamp : Time
  lastEditedTimestamp : Time
deriving DecidableEq

/-- `WorkoutSession` table from models.py. -/
structure WorkoutSession where
  sessionId : Option Nat
  userId : Nat
  workoutDate : Time
  startTime : Option Time
  endTime : Option Time
  totalDuration : Option Int
  location : Option String
  perceivedExertion : Option Int
  notes : Option String
  workoutSource : Option String
  createdTimestamp : Time
  lastEditedTimestamp : Time
deriving DecidableEq

/-- `ExerciseLog` table from models.py. The `session_id`/`exercise_id`
columns are `int` in the source but their values flow from possibly unset
Python attributes, so they are modelled as options; rows produced by the
repository operations always carry `some`. -/
structure ExerciseLog where
  exerciseLogId : Option Nat
  sessionId : Option Nat
  exerciseId : Option Nat
  setNumber : Option Int
  repetitions : Option Int
  weight : Option ℚ
  duration : Option Int
  restTime : Option Int
  notes : Option String
  difficultyLevel : Option String
  createdTimestamp : Time
  lastEditedTimestamp : Time
deriving DecidableEq

/-- The relational store: one list per table, in insertion (rowid) order,
plus the autoincrement counter for surrogate keys. -/
structure DB where
  users : List User
  workoutTypes : List WorkoutType
  exercises : List Exercise
  sessions : List WorkoutSession
  exerciseLogs : List ExerciseLog
  nextId : Nat
deriving DecidableEq

/-- The empty database. -/
def DB.empty : DB := ⟨[], [], [], [], [], 1⟩

/-- A database together with the clock-call counter. -/
structure St where
  db : DB
  clk : Nat
deriving DecidableEq

/-- Error taxonomy of the repository layer (spec section 7). -/
inductive RepoError where
  | ConstraintViolation
  | NotFound
  | DependencyConflict
  | Precondition
deriving DecidableEq

/-- Python `exercise.primary_muscle_group in ["Chest", "Back", "Legs"]`;
`None in [...]` is false. -/
def heavyGroup : Option String → Bool
  | some m => m == "Chest" || m == "Back" || m == "Legs"
  | none => false

/-- Weight rule of the log-creation loop in `create_workout_session`. -/
def sessionLogWeight (e : Exercise) : ℚ :=
  if heavyGroup e.primaryMuscleGroup then 50 else 25

/-- One `ExerciseLog(...)` constructed inside the loop of
`create_workout_session` (models.py lines 161-169): clock index `k` feeds
the two timestamp default factories, `sid` is the flushed session id,
`lid` the log's surrogate key, `setNum` the 1-based set index. -/
def mkSessionLog (c : Nat → ℚ) (k sid lid : Nat) (e : Exercise) (setNum : Nat) :
    ExerciseLog :=
  { exerciseLogId := some lid
    sessionId := some sid
    exerciseId := e.exerciseId
    setNumber := some (setNum : Int)
    repetitions := some (if setNum < 3 then 10 else 8)
    weight := some (sessionLogWeight e)
    duration := none
    restTime := some 60
    notes := none
    difficultyLevel := some "Medium"
    createdTimestamp := c k
    lastEditedTimestamp := c (k + 1) }

/-- The nested loop of `create_workout_session`: for each exercise, sets
1, 2, 3; each log consumes two clock readings and one surrogate key. -/
def sessionLogsAux (c : Nat → ℚ) (sid : Nat) : Nat → Nat → List Exercise → List ExerciseLog
  | _, _, [] => []
  | k, b, e :: tl =>
      mkSessionLog c k sid b e 1 :: mkSessionLog c (k + 2) sid (b + 1) e 2 ::
        mkSessionLog c (k + 4) sid (b + 2) e 3 :: sessionLogsAux c sid (k + 6) (b + 3) tl

/-- Stage a new WorkoutSession row (ORM `session.add`), consuming one
surrogate key (assigned at `flush`). -/
def addSessionRow (w : WorkoutSession) (db : DB) : DB :=
  { db with sessions := db.sessions ++ [w], nextId := db.nextId + 1 }

/-- Stage a new ExerciseLog row (ORM `session.add`), consuming one
surrogate key. -/
def addLogRow (l : ExerciseLog) (db : DB) : DB :=
  { db with exerciseLogs := db.exerciseLogs ++ [l], nextId := db.nextId + 1 }

/-- The post-loop mutation `workout_session.end_time = ...;
workout_session.total_duration = ...`: it targets the Python object just
added, i.e. the last staged session row. -/
def setLastSessionEnd (endT : Time) (dur : Int) (db : DB) : DB :=
  match db.sessions.getLast? with
  | none => db
  | some w =>
      { db with sessions :=
          db.sessions.dropLast ++ [{ w with endTime := some endT, totalDuration := some dur }] }

/-- A primitive of the transactional program: stage a change on the
transaction's view, or commit the staged view. -/
inductive Op where
  | stage : (DB → DB) → Op
  | commit : Op

/-- A transaction in flight: the durable store and the staged view. -/
structure Tx where
  persisted : DB
  staged : DB

/-- Interpret one primitive. -/
def stepOp (t : Tx) : Op → Tx
  | Op.stage f => { t with staged := f t.staged }
  | Op.commit => { t with persisted := t.staged }

/-- Run a program from a transaction state. -/
def runOpsFrom (t : Tx) (ops : List Op) : Tx := ops.foldl stepOp t

/-- Durable store left behind when the program is aborted after its first
`k` primitives (the ORM session closes without committing: staged rows
are rolled back). -/
def abortAfter (ops : List Op) (db : DB) (k : Nat) : DB :=
  (runOpsFrom { persisted := db, staged := db } (ops.take k)).persisted

/-- The WorkoutSession row as constructed at models.py lines 147-154:
clock reads `k` (workout_date), `k+1` (start_time), `k+2`/`k+3` (the two
timestamp default factories); `sid` is the id assigned at flush. -/
def wsInitial (c : Nat → ℚ) (k sid uid : Nat) : WorkoutSession :=
  { sessionId := some sid
    userId := uid
    workoutDate := c k
    startTime := some (c (k + 1))
    endTime := none
    totalDuration := none
    location := some "Home Gym"
    perceivedExertion := some 7
    notes := some "Felt strong today"
    workoutSource := none
    createdTimestamp := c (k + 2)
    lastEditedTimestamp := c (k + 3) }

/-- The `end_time` reading: one clock call after the `4 + 2 * (3 * len)`
calls consumed so far (4 by the session row, 2 per log). -/
def sessionEndTime (c : Nat → ℚ) (k len : Nat) : Time :=
  c (k + 4 + 2 * (3 * len))

/-- `int(delta.total_seconds() / 60)` at models.py line 176. -/
def sessionDuration (c : Nat → ℚ) (k len : Nat) : Int :=
  pyInt ((sessionEndTime c k len - c (k + 1)) / 60)

/-- The session row as finally persisted, after the end-time mutation. -/
def wsFinal (c : Nat → ℚ) (k sid uid len : Nat) : WorkoutSession :=
  { wsInitial c k sid uid with
      endTime := some (sessionEndTime c k len)
      totalDuration := some (sessionDuration c k len) }

/-- The transactional program of `create_workout_session` (models.py
lines 138-178): query the first three exercises; if none, do nothing;
otherwise stage the session row, stage three logs per exercise, stage the
end-time mutation, and commit. -/
def sessionProg (c : Nat → ℚ) (st : St) (userId : Nat) : List Op :=
  let exercises := st.db.exercises.take 3
  if exercises.isEmpty then []
  else
    let k := st.clk
    let sid := st.db.nextId
    Op.stage (addSessionRow (wsInitial c k sid userId)) ::
      ((sessionLogsAux c sid (k + 4) (sid + 1) exercises).map fun l => Op.stage (addLogRow l)) ++
        [Op.stage (setLastSessionEnd (sessionEndTime c k exercises.length)
            (sessionDuration c k exercises.length)),
          Op.commit]

/-- `create_workout_session(engine, user_id)` from models.py: runs the
transactional program against the store; on the empty-exercise path it
prints and returns without touching the database. -/
def create_workout_session (c : Nat → ℚ) (st : St) (userId : Nat) : St :=
  let exercises := st.db.exercises.take 3
  if exercises.isEmpty then st
  else
    { db := (runOpsFrom { persisted := st.db, staged := st.db }
        (sessionProg c st userId)).persisted
      clk := st.clk + 5 + 6 * exercises.length }

/-- Normal form of the store `create_workout_session` leaves behind on
its non-empty path: the session row and three logs per queried exercise
appended, and the key counter advanced accordingly. -/
def resultDB (c : Nat → ℚ) (st : St) (uid : Nat) : DB :=
  { st.db with
    sessions := st.db.sessions ++
      [wsFinal c st.clk st.db.nextId uid (st.db.exercises.take 3).length]
    exerciseLogs := st.db.exerciseLogs ++
      sessionLogsAux c st.db.nextId (st.clk + 4) (st.db.nextId + 1) (st.db.exercises.take 3)
    nextId := st.db.nextId + 1 + 3 * (st.db.exercises.take 3).length }

/-- `query_workout_type_table(engine)` from models.py: inserts one
hard-coded WorkoutType row and commits. -/
def query_workout_type_table (c : Nat → ℚ) (st : St) : St :=
  { db := { st.db with
      workoutTypes := st.db.workoutTypes ++
        [{ workoutTypeId := some st.db.nextId
           workoutName := "Strength Training"
           muscleGroupTargeted := "Full Body"
           categoryType := some "Weightlifting"
           description := some "A high-intensity workout for muscle building."
           difficultyLevel := none
           createdTimestamp := c st.clk
           lastEditedTimestamp := c (st.clk + 1) }]
      nextId := st.db.nextId + 1 }
    clk := st.clk + 2 }

/-- Modelled from the spec: the repository `create(entity)` operation for
User (spec section 4.1) is not in the source, which only declares the
schema; create inserts a row, assigns the surrogate key and populates
both timestamps. User has no foreign keys, so no constraint can fail. -/
def createUser (c : Nat → ℚ) (st : St) (username email passwordHash : String) : St :=
  { db := { st.db with
      users := st.db.users ++
        [{ userId := some st.db.nextId
           username := username
           email := email
           passwordHash := passwordHash
           firstName := none
           lastName := none
           createdTimestamp := c st.clk
           lastEditedTimestamp := c (st.clk + 1) }]
      nextId := st.db.nextId + 1 }
    clk := st.clk + 2 }

/-- Modelled from the spec: the repository `create(entity)` operation for
Exercise (spec sections 4.1 and 7) is not in the source, which only
declares the schema. The `workout_type_id` column is nullable in the
source (`Optional[int]`); per the spec a non-null foreign key must
reference an existing WorkoutType, else the create fails with
`ConstraintViolation`. The payload's key and timestamps are overwritten
by the storage layer. -/
def createExercise (c : Nat → ℚ) (st : St) (e : Exercise) : Except RepoError St :=
  let fkOk : Bool :=
    match e.workoutTypeId with
    | none => true
    | some t => st.db.workoutTypes.any fun w => w.workoutTypeId == some t
  if fkOk then
    Except.ok
      { db := { st.db with
          exercises := st.db.exercises ++
            [{ e with
                exerciseId := some st.db.nextId
                createdTimestamp := c st.clk
                lastEditedTimestamp := c (st.clk + 1) }]
          nextId := st.db.nextId + 1 }
        clk := st.clk + 2 }
  else Except.error RepoError.ConstraintViolation

/-- Modelled from the spec: the repository `create(entity)` operation for
ExerciseLog (spec sections 4.1 and 7) is not in the source. Both foreign
keys must reference existing rows, and the check `set_number < 1` fails
with `ConstraintViolation`; as for an SQL CHECK constraint, an absent
set_number passes the check. -/
def createExerciseLog (c : Nat → ℚ) (st : St) (sid eid : Nat) (l : ExerciseLog) :
    Except RepoError St :=
  let sessionOk : Bool := st.db.sessions.any fun w => w.sessionId == some sid
  let exerciseOk : Bool := st.db.exercises.any fun e => e.exerciseId == some eid
  let setOk : Bool := l.setNumber.all fun n => decide (1 ≤ n)
  if sessionOk && exerciseOk && setOk then
    Except.ok
      { db := { st.db with
          exerciseLogs := st.db.exerciseLogs ++
            [{ l with
                exerciseLogId := some st.db.nextId
                sessionId := some sid
                exerciseId := some eid
                createdTimestamp := c st.clk
                lastEditedTimestamp := c (st.clk + 1) }]
          nextId := st.db.nextId + 1 }
        clk := st.clk + 2 }
  else Except.error RepoError.ConstraintViolation

/-- Modelled from the spec: the repository `update(entity)` operation
(spec section 4.1) is not in the source beyond the
`onupdate=datetime.utcnow` column declaration on
`last_edited_timestamp`; an update rewrites payload fields and refreshes
`last_edited_timestamp` with a fresh clock reading. Shown here for the
User.username field; out-of-range indices leave the store untouched. -/
def updateUserName (c : Nat → ℚ) (st : St) (i : Nat) (newName : String) : St :=
  match st.db.users[i]? with
  | none => st
  | some u =>
      { db := { st.db with
          users := st.db.users.set i
            { u with username := newName, lastEditedTimestamp := c st.clk } }
        clk := st.clk + 1 }

/-- Database states reachable from the empty store through the modelled
repository operations. -/
inductive Reachable (c : Nat → ℚ) : St → Prop where
  | init : Reachable c { db := DB.empty, clk := 0 }
  | user (s : St) (username email ph : String) :
      Reachable c s → Reachable c (createUser c s username email ph)
  | seedType (s : St) :
      Reachable c s → Reachable c (query_workout_type_table c s)
  | exercise (s s' : St) (e : Exercise) :
      Reachable c s → createExercise c s e = Except.ok s' → Reachable c s'
  | log (s s' : St) (sid eid : Nat) (l : ExerciseLog) :
      Reachable c s → createExerciseLog c s sid eid l = Except.ok s' → Reachable c s'
  | rename (s : St) (i : Nat) (nm : String) :
      Reachable c s → Reachable c (updateUserName c s i nm)
  | workout (s : St) (uid : Nat) :
      Reachable c s → Reachable c (create_workout_session c s uid)

/-- The identity clock used by the concrete witnesses. -/
def clk0 : Nat → ℚ := fun n => (n : ℚ)

/-- The initial state. -/
def st0 : St := { db := DB.empty, clk := 0 }

/-- A concrete Exercise payload with no workout type. -/
def exPayloadNoType : Exercise :=
  { exerciseId := none
    workoutTypeId := none
    exerciseName := "Push Up"
    description := none
    equipmentRequired := none
    primaryMuscleGroup := some "Legs"
    difficultyLevel := none
    caloriesBurnedPerMinute := none
    muscleGroupsSecondary := none
    videoTutorialLink := none
    imageUrl := none
    createdTimestamp := 0
    lastEditedTimestamp := 0 }

/-- A concrete Exercise payload referencing workout type 2. -/
def exPayloadTyped : Exercise :=
  { exPayloadNoType with exerciseName := "Squat", workoutTypeId := some 2 }

/-- One user inserted into the empty store. -/
def stA : St := createUser clk0 st0 "ada" "ada at example dot com" "hash"

/-- A seeded workout type on top of `stA` (gets surrogate key 2). -/
def stB : St := query_workout_type_table clk0 stA

/-- One exercise referencing that workout type, on top of `stB`. -/
def stC : St := (createExercise clk0 stB exPayloadTyped).toOption.getD stB

/-- A full workout session recorded on top of `stC`. -/
def stD : St := create_workout_session clk0 stC 1

/-- A state with three exercises on hand, for the witnesses. -/
def st3 : St :=
  { db := { DB.empty with
      exercises :=
        [{ exPayloadNoType with exerciseId := some 1, primaryMuscleGroup := some "Legs" },
          { exPayloadNoType with exerciseId := some 2, primaryMuscleGroup := some "Biceps" },
          { exPayloadNoType with exerciseId := some 3, primaryMuscleGroup := none }]
      nextId := 4 }
    clk := 0 }

/-- Creation-order discipline of the two BaseModel timestamps: both were
read from the clock, in order, before the state's clock frontier. -/
def stampedBelow (c : Nat → ℚ) (n : Nat) (a b : Time) : Prop :=
  ∃ i j, i ≤ j ∧ j < n ∧ a = c i ∧ b = c j

/-- Every row of every table respects the creation-order discipline. -/
def stampedInv (c : Nat → ℚ) (s : St) : Prop :=
  (∀ u ∈ s.db.users, stampedBelow c s.clk u.createdTimestamp u.lastEditedTimestamp) ∧
    (∀ w ∈ s.db.workoutTypes, stampedBelow c s.clk w.createdTimestamp w.lastEditedTimestamp) ∧
    (∀ e ∈ s.db.exercises, stampedBelow c s.clk e.createdTimestamp e.lastEditedTimestamp) ∧
    (∀ w ∈ s.db.sessions, stampedBelow c s.clk w.createdTimestamp w.lastEditedTimestamp) ∧
    (∀ l ∈ s.db.exerciseLogs, stampedBelow c s.clk l.createdTimestamp l.lastEditedTimestamp)

/-- On every row of every table, created_timestamp ≤ last_edited_timestamp. -/
def dbStampsOrdered (db : DB) : Prop :=
  (∀ u ∈ db.users, u.createdTimestamp ≤ u.lastEditedTimestamp) ∧
    (∀ w ∈ db.workoutTypes, w.createdTimestamp ≤ w.lastEditedTimestamp) ∧
    (∀ e ∈ db.exercises, e.createdTimestamp ≤ e.lastEditedTimestamp) ∧
    (∀ w ∈ db.sessions, w.createdTimestamp ≤ w.lastEditedTimestamp) ∧
    (∀ l ∈ db.exerciseLogs, l.createdTimestamp ≤ l.lastEditedTimestamp)

lemma clk0_mono : Monotone clk0 := fun a b h => by
  simp only [clk0]
  exact_mod_cast h

lemma pyInt_eq_floor {q : ℚ} (h : 0 ≤ q) : pyInt q = ⌊q⌋ := if_pos h

lemma sessionLogsAux_length (c : Nat → ℚ) (sid : Nat) (es : List Exercise) :
    ∀ k b, (sessionLogsAux c sid k b es).length = 3 * es.length := by
  induction es with
  | nil => intro k b; simp [sessionLogsAux]
  | cons e tl ih =>
      intro k b
      simp only [sessionLogsAux, List.length_cons, ih]
      omega

lemma sessionLogsAux_getElem? (c : Nat → ℚ) (sid : Nat) (es : List Exercise) :
    ∀ k b j, (sessionLogsAux c sid k b es)[j]? =
      (es[j / 3]?).map fun e => mkSessionLog c (k + 2 * j) sid (b + j) e (j % 3 + 1) := by
  induction es with
  | nil => intro k b j; simp [sessionLogsAux]
  | cons e tl ih =>
      intro k b j
      match j with
      | 0 => simp [sessionLogsAux]
      | 1 => norm_num [sessionLogsAux]
      | 2 => norm_num [sessionLogsAux]
      | n + 3 =>
          simp only [sessionLogsAux, List.getElem?_cons_succ]
          rw [ih (k + 6) (b + 3) n]
          rw [show (n + 3) / 3 = n / 3 + 1 by omega, List.getElem?_cons_succ,
            show (n + 3) % 3 = n % 3 by omega,
            show k + 6 + 2 * n = k + 2 * (n + 3) by ring,
            show b + 3 + n = b + (n + 3) by ring]

lemma sessionLogsAux_mem {l : ExerciseLog} {c : Nat → ℚ} {sid k b : Nat}
    {es : List Exercise} (hl : l ∈ sessionLogsAux c sid k b es) :
    ∃ j e, j < 3 * es.length ∧ es[j / 3]? = some e ∧
      l = mkSessionLog c (k + 2 * j) sid (b + j) e (j % 3 + 1) := by
  obtain ⟨j, hj⟩ := List.mem_iff_getElem?.mp hl
  rw [sessionLogsAux_getElem?] at hj
  obtain ⟨e, he, hmk⟩ := Option.map_eq_some'.mp hj
  have hlt : j / 3 < es.length := (List.getElem?_eq_some.mp he).1
  exact ⟨j, e, by omega, he, hmk.symm⟩

lemma runOpsFrom_append (t : Tx) (l₁ l₂ : List Op) :
    runOpsFrom t (l₁ ++ l₂) = runOpsFrom (runOpsFrom t l₁) l₂ :=
  List.foldl_append stepOp t l₁ l₂

lemma runOps_no_commit (ops : List Op) : ∀ t : Tx,
    (∀ o ∈ ops, o ≠ Op.commit) → (runOpsFrom t ops).persisted = t.persisted := by
  induction ops with
  | nil => intro t _; rfl
  | cons o rest ih =>
      intro t h
      have ho := h o (List.mem_cons_self o rest)
      match o with
      | Op.commit => exact absurd rfl ho
      | Op.stage f =>
          have hrest := ih { t with staged := f t.staged }
            (fun o' ho' => h o' (List.mem_cons_of_mem _ ho'))
          simpa [runOpsFrom, stepOp] using hrest

lemma runOps_stageLogs (ls : List ExerciseLog) : ∀ t : Tx,
    runOpsFrom t (ls.map fun l => Op.stage (addLogRow l)) =
      { t with staged := { t.staged with
          exerciseLogs := t.staged.exerciseLogs ++ ls
          nextId := t.staged.nextId + ls.length } } := by
  induction ls with
  | nil => intro t; simp [runOpsFrom]
  | cons l tl ih =>
      intro t
      simp only [List.map_cons, runOpsFrom, List.foldl_cons]
      have hstep : stepOp t (Op.stage (addLogRow l)) =
          { t with staged := addLogRow l t.staged } := rfl
      rw [hstep]
      have := ih { t with staged := addLogRow l t.staged }
      simp only [runOpsFrom] at this
      rw [this]
      simp [addLogRow, List.append_assoc, Tx.mk.injEq, DB.mk.injEq]
      omega

lemma take3_not_isEmpty {st : St} (h : st.db.exercises ≠ []) :
    (st.db.exercises.take 3).isEmpty = false := by
  rw [Bool.eq_false_iff]
  simp [List.isEmpty_iff, List.take_eq_nil_iff, h]

lemma runOpsFrom_cons (t : Tx) (o : Op) (ops : List Op) :
    runOpsFrom t (o :: ops) = runOpsFrom (stepOp t o) ops := rfl

lemma runOpsFrom_nil (t : Tx) : runOpsFrom t [] = t := rfl

lemma runProg_persisted (c : Nat → ℚ) (st : St) (uid : Nat)
    (h : st.db.exercises ≠ []) :
    (runOpsFrom { persisted := st.db, staged := st.db }
        (sessionProg c st uid)).persisted = resultDB c st uid := by
  have hne := take3_not_isEmpty h
  simp only [sessionProg, hne, Bool.false_eq_true, if_false]
  rw [runOpsFrom_append, runOpsFrom_cons, runOpsFrom_cons, runOpsFrom_nil,
    runOpsFrom_cons, runOps_stageLogs]
  simp only [stepOp, addSessionRow, setLastSessionEnd, List.getLast?_concat,
    List.dropLast_concat, resultDB, wsFinal, sessionLogsAux_length, St.mk.injEq,
    DB.mk.injEq, and_true, true_and]

lemma create_workout_session_eq (c : Nat → ℚ) (st : St) (uid : Nat)
    (h : st.db.exercises ≠ []) :
    create_workout_session c st uid =
      { db := resultDB c st uid
        clk := st.clk + 5 + 6 * (st.db.exercises.take 3).length } := by
  have hne := take3_not_isEmpty h
  simp only [create_workout_session, hne, Bool.false_eq_true, if_false]
  rw [runProg_persisted c st uid h]

lemma create_workout_session_empty (c : Nat → ℚ) (st : St) (uid : Nat)
    (h : st.db.exercises = []) : create_workout_session c st uid = st := by
  simp [create_workout_session, h]

lemma heavyGroup_iff (o : Option String) :
    heavyGroup o = true ↔
      (o = some "Chest" ∨ o = some "Back" ∨ o = some "Legs") := by
  cases o with
  | none => simp [heavyGroup]
  | some m =>
      simp only [heavyGroup, Bool.or_eq_true, beq_iff_eq, Option.some.injEq]
      tauto

lemma stampedBelow_mono {c : Nat → ℚ} {n m : Nat} {a b : Time} (hnm : n ≤ m)
    (h : stampedBelow c n a b) : stampedBelow c m a b := by
  obtain ⟨i, j, hij, hj, ha, hb⟩ := h
  exact ⟨i, j, hij, by omega, ha, hb⟩

lemma stampedBelow_le {c : Nat → ℚ} {n : Nat} {a b : Time} (hc : Monotone c)
    (h : stampedBelow c n a b) : a ≤ b := by
  obtain ⟨i, j, hij, _, rfl, rfl⟩ := h
  exact hc hij

/-- Claim C4: when `create_workout_session` runs with no exercises
available, zero rows are persisted: the session table and the log table
are exactly as before, so a partially populated session never becomes
observable. -/
theorem c4_empty_no_rows (c : Nat → ℚ) (st : St) (uid : Nat)
    (h : st.db.exercises = []) :
    (create_workout_session c st uid).db.sessions = st.db.sessions ∧
      (create_workout_session c st uid).db.exerciseLogs = st.db.exerciseLogs := by
  rw [create_workout_session_empty c st uid h]
  exact ⟨rfl, rfl⟩

theorem c4_empty_no_rows_witness :
    st0.db.exercises = [] ∧
      (create_workout_session clk0 st0 7).db.sessions = st0.db.sessions ∧
      (create_workout_session clk0 st0 7).db.exerciseLogs = st0.db.exerciseLogs :=
  ⟨rfl, c4_empty_no_rows clk0 st0 7 rfl⟩

/-- Claim C3 counterexample: called on a store with no exercises (and a
user id, 7, referencing no existing User), `create_workout_session` does
not fail with `Precondition` or any other error — it silently returns
with the store unchanged; and on a store holding an exercise but no users
at all, the same call succeeds and persists a session row for the
nonexistent user, so no user-existence precondition is checked either. -/
theorem c3_counterexample :
    create_workout_session clk0 st0 7 = st0 ∧
      st3.db.users = [] ∧
      (create_workout_session clk0 st3 7).db.sessions.length = 1 := by
  refine ⟨rfl, rfl, ?_⟩
  rw [create_workout_session_eq clk0 st3 7 (by simp [st3, DB.empty])]
  simp [resultDB, st3, DB.empty]

/-- Claim C3 amended: `create_workout_session` checks no precondition at
all. When the store has no exercises it silently returns with the store
unchanged and signals no error; when the store has exercises, the call
goes through and persists a session row carrying the supplied user id
whether or not that user exists. -/
theorem c3_amended_no_precondition (c : Nat → ℚ) (st : St) (uid : Nat) :
    (st.db.exercises = [] → create_workout_session c st uid = st) ∧
      (st.db.exercises ≠ [] → ∃ w,
        (create_workout_session c st uid).db.sessions = st.db.sessions ++ [w] ∧
          w.userId = uid) := by
  refine ⟨create_workout_session_empty c st uid, fun h => ?_⟩
  rw [create_workout_session_eq c st uid h]
  exact ⟨_, rfl, rfl⟩

theorem c3_amended_no_precondition_witness :
    create_workout_session clk0 st0 7 = st0 ∧
      ∃ w, (create_workout_session clk0 st3 7).db.sessions = st3.db.sessions ++ [w] ∧
        w.userId = 7 :=
  ⟨(c3_amended_no_precondition clk0 st0 7).1 rfl,
    (c3_amended_no_precondition clk0 st3 7).2 (by simp [st3, DB.empty])⟩

/-- Claim C10: `create_workout_session` queries at most the first three
exercise rows (limit 3) instead of taking exercises from the caller, so a
single call appends exactly three logs per queried exercise — never more
than nine — and every appended log references one of the first three
exercise rows, whatever the state of the exercise table. -/
theorem c10_limit_three (c : Nat → ℚ) (st : St) (uid : Nat) :
    ∃ N, (create_workout_session c st uid).db.exerciseLogs = st.db.exerciseLogs ++ N ∧
      N.length = 3 * (st.db.exercises.take 3).length ∧
      N.length ≤ 9 ∧
      ∀ l ∈ N, ∃ e ∈ st.db.exercises.take 3, l.exerciseId = e.exerciseId := by
  by_cases h : st.db.exercises = []
  · refine ⟨[], by rw [create_workout_session_empty c st uid h]; simp, by simp [h], by simp, by simp⟩
  · rw [create_workout_session_eq c st uid h]
    refine ⟨_, rfl, sessionLogsAux_length c st.db.nextId (st.db.exercises.take 3) _ _, ?_, ?_⟩
    · have h3 := List.length_take_le 3 st.db.exercises
      rw [sessionLogsAux_length]
      omega
    · intro l hl
      obtain ⟨j, e, _, he, rfl⟩ := sessionLogsAux_mem hl
      exact ⟨e, List.getElem?_mem he, rfl⟩

/-- Claim C5: every log appended by `create_workout_session` carries
`weight = 50.0` exactly when its exercise's primary_muscle_group is one
of Chest, Back, Legs, and `weight = 25.0` for any other value, an unset
one included. -/
theorem c5_weight_rule (c : Nat → ℚ) (st : St) (uid : Nat) :
    ∃ N, (create_workout_session c st uid).db.exerciseLogs = st.db.exerciseLogs ++ N ∧
      ∀ l ∈ N, ∃ e ∈ st.db.exercises,
        l.exerciseId = e.exerciseId ∧
        l.weight = some (if heavyGroup e.primaryMuscleGroup then 50 else 25) ∧
        (heavyGroup e.primaryMuscleGroup = true ↔
          (e.primaryMuscleGroup = some "Chest" ∨ e.primaryMuscleGroup = some "Back" ∨
            e.primaryMuscleGroup = some "Legs")) := by
  by_cases h : st.db.exercises = []
  · exact ⟨[], by rw [create_workout_session_empty c st uid h]; simp, by simp⟩
  · rw [create_workout_session_eq c st uid h]
    refine ⟨_, rfl, fun l hl => ?_⟩
    obtain ⟨j, e, _, he, rfl⟩ := sessionLogsAux_mem hl
    exact ⟨e, List.take_subset 3 st.db.exercises (List.getElem?_mem he), rfl, rfl,
      heavyGroup_iff e.primaryMuscleGroup⟩

/-- Claim C1: with exactly three exercises available, one call to
`create_workout_session` appends exactly nine logs — the three
consecutive logs at offsets 3i, 3i+1, 3i+2 belonging to the i-th
exercise — where the logs of set 1 and 2 have 10 repetitions, the log of
set 3 has 8, and every log has rest_time 60 and difficulty_level
Medium. -/
theorem c1_nine_logs (c : Nat → ℚ) (st : St) (uid : Nat)
    (hlen : st.db.exercises.length = 3) :
    ∃ N, (create_workout_session c st uid).db.exerciseLogs = st.db.exerciseLogs ++ N ∧
      N.length = 9 ∧
      ∀ j l, N[j]? = some l →
        (∃ e, st.db.exercises[j / 3]? = some e ∧ l.exerciseId = e.exerciseId) ∧
        l.setNumber = some ((j % 3 + 1 : Nat) : Int) ∧
        (j % 3 < 2 → l.repetitions = some 10) ∧
        (j % 3 = 2 → l.repetitions = some 8) ∧
        l.restTime = some 60 ∧
        l.difficultyLevel = some "Medium" := by
  have h : st.db.exercises ≠ [] := by
    intro hnil
    rw [hnil] at hlen
    simp at hlen
  have htake : st.db.exercises.take 3 = st.db.exercises :=
    List.take_of_length_le (by omega)
  rw [create_workout_session_eq c st uid h]
  refine ⟨_, rfl, ?_, ?_⟩
  · rw [sessionLogsAux_length, htake, hlen]
  · intro j l hjl
    rw [sessionLogsAux_getElem?, htake] at hjl
    obtain ⟨e, he, rfl⟩ := Option.map_eq_some'.mp hjl
    refine ⟨⟨e, he, rfl⟩, rfl, ?_, ?_, rfl, rfl⟩
    · intro hj2
      show some (if j % 3 + 1 < 3 then (10 : Int) else 8) = some 10
      rw [if_pos (by omega)]
    · intro hj2
      show some (if j % 3 + 1 < 3 then (10 : Int) else 8) = some 8
      rw [if_neg (by omega)]

theorem c1_nine_logs_witness :
    st3.db.exercises.length = 3 ∧
      ∃ N, (create_workout_session clk0 st3 1).db.exerciseLogs = st3.db.exerciseLogs ++ N ∧
        N.length = 9 ∧
        ∀ j l, N[j]? = some l →
          (∃ e, st3.db.exercises[j / 3]? = some e ∧ l.exerciseId = e.exerciseId) ∧
          l.setNumber = some ((j % 3 + 1 : Nat) : Int) ∧
          (j % 3 < 2 → l.repetitions = some 10) ∧
          (j % 3 = 2 → l.repetitions = some 8) ∧
          l.restTime = some 60 ∧
          l.difficultyLevel = some "Medium" :=
  ⟨rfl, c1_nine_logs clk0 st3 1 rfl⟩

/-- Claim C6: on every session completed by `create_workout_session`,
start_time and end_time are set, end_time is taken from a later clock
reading than start_time (so end ≥ start under a monotone wall clock), and
total_duration is the floor of the elapsed seconds divided by 60. -/
theorem c6_total_duration (c : Nat → ℚ) (st : St) (uid : Nat) (hc : Monotone c) :
    ∃ N, (create_workout_session c st uid).db.sessions = st.db.sessions ++ N ∧
      ∀ w ∈ N, ∃ s e, w.startTime = some s ∧ w.endTime = some e ∧ s ≤ e ∧
        w.totalDuration = some ⌊(e - s) / 60⌋ := by
  by_cases h : st.db.exercises = []
  · exact ⟨[], by rw [create_workout_session_empty c st uid h]; simp, by simp⟩
  · rw [create_workout_session_eq c st uid h]
    refine ⟨_, rfl, fun w hw => ?_⟩
    rw [List.mem_singleton] at hw
    subst hw
    have hse : c (st.clk + 1) ≤
        sessionEndTime c st.clk (st.db.exercises.take 3).length :=
      hc (by omega)
    refine ⟨c (st.clk + 1), sessionEndTime c st.clk (st.db.exercises.take 3).length,
      rfl, rfl, hse, ?_⟩
    show some (sessionDuration c st.clk (st.db.exercises.take 3).length) = _
    rw [sessionDuration, pyInt_eq_floor (div_nonneg (sub_nonneg.mpr hse) (by norm_num))]

theorem c6_total_duration_witness :
    ∃ N, (create_workout_session clk0 stC 1).db.sessions = stC.db.sessions ++ N ∧
      ∀ w ∈ N, ∃ s e, w.startTime = some s ∧ w.endTime = some e ∧ s ≤ e ∧
        w.totalDuration = some ⌊(e - s) / 60⌋ :=
  c6_total_duration clk0 stC 1 clk0_mono

/-- Claim C2: `create_workout_session` is atomic. Aborting the
transactional program after any number of primitives leaves the durable
store either untouched or holding the complete result, in which the new
session row and all of its logs (three per queried exercise, all
referencing the new session's id) appear together; no prefix persists a
session without its logs or logs without their session. -/
theorem c2_atomicity (c : Nat → ℚ) (st : St) (uid k : Nat) :
    abortAfter (sessionProg c st uid) st.db k = st.db ∨
      (abortAfter (sessionProg c st uid) st.db k = (create_workout_session c st uid).db ∧
        ∃ w N, (create_workout_session c st uid).db.sessions = st.db.sessions ++ [w] ∧
          (create_workout_session c st uid).db.exerciseLogs = st.db.exerciseLogs ++ N ∧
          N ≠ [] ∧ ∃ sid, w.sessionId = some sid ∧ ∀ l ∈ N, l.sessionId = some sid) := by
  by_cases h : st.db.exercises = []
  · left
    have hp : sessionProg c st uid = [] := by simp [sessionProg, h]
    rw [hp]
    simp [abortAfter, runOpsFrom]
  · have hne := take3_not_isEmpty h
    have hprog : sessionProg c st uid =
        (Op.stage (addSessionRow (wsInitial c st.clk st.db.nextId uid)) ::
            (sessionLogsAux c st.db.nextId (st.clk + 4) (st.db.nextId + 1)
                (st.db.exercises.take 3)).map (fun l => Op.stage (addLogRow l)) ++
            [Op.stage (setLastSessionEnd
              (sessionEndTime c st.clk (st.db.exercises.take 3).length)
              (sessionDuration c st.clk (st.db.exercises.take 3).length))]) ++
          [Op.commit] := by
      simp only [sessionProg, hne, Bool.false_eq_true, if_false]
      rw [List.append_assoc, List.singleton_append]
    set S := Op.stage (addSessionRow (wsInitial c st.clk st.db.nextId uid)) ::
        (sessionLogsAux c st.db.nextId (st.clk + 4) (st.db.nextId + 1)
            (st.db.exercises.take 3)).map (fun l => Op.stage (addLogRow l)) ++
        [Op.stage (setLastSessionEnd
          (sessionEndTime c st.clk (st.db.exercises.take 3).length)
          (sessionDuration c st.clk (st.db.exercises.take 3).length))] with hS
    have hnoc : ∀ o ∈ S, o ≠ Op.commit := by
      intro o ho hoc
      subst hoc
      rw [hS] at ho
      rcases List.mem_append.mp ho with h1 | h2
      · rcases List.mem_cons.mp h1 with h3 | h4
        · exact absurd h3 (by simp)
        · obtain ⟨l, _, hl⟩ := List.mem_map.mp h4
          exact absurd hl (by simp)
      · rw [List.mem_singleton] at h2
        exact absurd h2 (by simp)
    by_cases hk : k ≤ S.length
    · left
      rw [hprog]
      unfold abortAfter
      rw [List.take_append_of_le_length hk]
      exact runOps_no_commit (S.take k) _
        (fun o ho => hnoc o (List.take_subset k S ho))
    · right
      have hfull : (sessionProg c st uid).take k = sessionProg c st uid := by
        apply List.take_of_length_le
        rw [hprog]
        simp only [List.length_append, List.length_cons, List.length_nil]
        omega
      constructor
      · unfold abortAfter
        rw [hfull, runProg_persisted c st uid h, create_workout_session_eq c st uid h]
      · rw [create_workout_session_eq c st uid h]
        refine ⟨_, _, rfl, rfl, ?_, st.db.nextId, rfl, fun l hl => ?_⟩
        · intro hnil
          have hlen := sessionLogsAux_length c st.db.nextId (st.db.exercises.take 3)
            (st.clk + 4) (st.db.nextId + 1)
          rw [hnil] at hlen
          have hne2 : st.db.exercises.take 3 ≠ [] := by
            simp [List.take_eq_nil_iff, h]
          have hpos := List.length_pos.mpr hne2
          simp only [List.length_nil] at hlen
          omega
        · obtain ⟨j, e, _, _, rfl⟩ := sessionLogsAux_mem hl
          rfl

/-- Claim C7 counterexample: `Exercise.workout_type_id` is declared
`Optional[int]` in the source, so it is nullable: creating an Exercise
with no workout_type_id at all succeeds — it does not fail with
`ConstraintViolation` — and the persisted row has a null
workout_type_id, so an Exercise does not belong to exactly one
WorkoutType. -/
theorem c7_counterexample :
    ∃ st', createExercise clk0 st0 exPayloadNoType = Except.ok st' ∧
      st'.db.exercises.length = 1 ∧
      ∀ e ∈ st'.db.exercises, e.workoutTypeId = none := by
  refine ⟨_, rfl, rfl, ?_⟩
  intro e he
  simp only [createExercise, st0, DB.empty, exPayloadNoType, List.nil_append,
    List.mem_singleton] at he
  subst he
  rfl

/-- Claim C7 amended: `Exercise.workout_type_id` is nullable — creating
an Exercise with it unset succeeds — and when it is set it must
reference an existing WorkoutType: creation succeeds when a WorkoutType
with that key exists and fails with `ConstraintViolation` when none
does. -/
theorem c7_amended_nullable_fk (c : Nat → ℚ) (st : St) (e : Exercise) :
    (e.workoutTypeId = none → ∃ st', createExercise c st e = Except.ok st') ∧
      ∀ t, e.workoutTypeId = some t →
        ((∃ w ∈ st.db.workoutTypes, w.workoutTypeId = some t) →
            ∃ st', createExercise c st e = Except.ok st') ∧
          ((∀ w ∈ st.db.workoutTypes, w.workoutTypeId ≠ some t) →
            createExercise c st e = Except.error RepoError.ConstraintViolation) := by
  constructor
  · intro hn
    simp [createExercise, hn]
  · intro t ht
    constructor
    · rintro ⟨w, hw, hwt⟩
      have hany : (st.db.workoutTypes.any fun w => w.workoutTypeId == some t) = true :=
        List.any_eq_true.mpr ⟨w, hw, by simp [hwt]⟩
      simp [createExercise, ht, hany]
    · intro hno
      have hany : (st.db.workoutTypes.any fun w => w.workoutTypeId == some t) = false :=
        List.any_eq_false.mpr (fun w hw => by simp [hno w hw])
      simp [createExercise, ht, hany]

theorem c7_amended_nullable_fk_witness :
    (∃ st', createExercise clk0 st0 exPayloadNoType = Except.ok st') ∧
      createExercise clk0 st0 exPayloadTyped = Except.error RepoError.ConstraintViolation :=
  ⟨(c7_amended_nullable_fk clk0 st0 exPayloadNoType).1 rfl,
    ((c7_amended_nullable_fk clk0 st0 exPayloadTyped).2 2 rfl).2 (by simp [st0, DB.empty])⟩

lemma createExerciseLog_dangling (c : Nat → ℚ) (s : St) (sid eid : Nat)
    (l : ExerciseLog) (h : ∀ w ∈ s.db.sessions, w.sessionId ≠ some sid) :
    createExerciseLog c s sid eid l = Except.error RepoError.ConstraintViolation := by
  have hany : (s.db.sessions.any fun w => w.sessionId == some sid) = false :=
    List.any_eq_false.mpr (fun w hw => by simp [h w hw])
  simp [createExerciseLog, hany]

lemma reachable_logInv (c : Nat → ℚ) (s : St) (hr : Reachable c s) :
    ∀ l ∈ s.db.exerciseLogs,
      (∀ n : Int, l.setNumber = some n → 1 ≤ n) ∧
        (∃ w ∈ s.db.sessions, w.sessionId = l.sessionId) ∧
        (∃ e ∈ s.db.exercises, e.exerciseId = l.exerciseId) := by
  induction hr with
  | init => intro l hl; simp [DB.empty] at hl
  | user s un em ph _ ih => exact ih
  | seedType s _ ih => exact ih
  | rename s i nm _ ih =>
      intro l hl
      unfold updateUserName
      unfold updateUserName at hl
      cases hu : s.db.users[i]? with
      | none => rw [hu] at hl; exact ih l hl
      | some u => rw [hu] at hl; exact ih l hl
  | exercise s s' e _ heq ih =>
      simp only [createExercise] at heq
      split at heq
      · cases heq
        intro l hl
        obtain ⟨h1, h2, h3⟩ := ih l hl
        exact ⟨h1, h2, h3.imp fun e' he' => ⟨List.mem_append_left _ he'.1, he'.2⟩⟩
      · exact absurd heq (by simp)
  | log s s' sid eid l₀ _ heq ih =>
      simp only [createExerciseLog] at heq
      split at heq
      case isTrue hcond =>
        cases heq
        rw [Bool.and_eq_true, Bool.and_eq_true] at hcond
        obtain ⟨⟨hses, hex⟩, hset⟩ := hcond
        intro l hl
        rcases List.mem_append.mp hl with hold | hnew
        · exact ih l hold
        · rw [List.mem_singleton] at hnew
          subst hnew
          refine ⟨?_, ?_, ?_⟩
          · intro n hn
            simp only at hn
            cases hsn : l₀.setNumber with
            | none => rw [hsn] at hn; exact absurd hn (by simp)
            | some m =>
                rw [hsn] at hn
                rw [Option.some.injEq] at hn
                subst hn
                rw [hsn] at hset
                simp only [Option.all_some, decide_eq_true_eq] at hset
                exact hset
          · obtain ⟨w, hw, hwid⟩ := List.any_eq_true.mp hses
            exact ⟨w, hw, by simpa using hwid⟩
          · obtain ⟨e, he, heid⟩ := List.any_eq_true.mp hex
            exact ⟨e, he, by simpa using heid⟩
      case isFalse => exact absurd heq (by simp)
  | workout s uid _ ih =>
      by_cases hemp : s.db.exercises = []
      · rw [create_workout_session_empty c s uid hemp]
        exact ih
      · rw [create_workout_session_eq c s uid hemp]
        intro l hl
        rcases List.mem_append.mp hl with hold | hnew
        · obtain ⟨h1, h2, h3⟩ := ih l hold
          exact ⟨h1, h2.imp fun w hw => ⟨List.mem_append_left _ hw.1, hw.2⟩, h3⟩
        · obtain ⟨j, e, _, he, rfl⟩ := sessionLogsAux_mem hnew
          refine ⟨?_, ?_, ?_⟩
          · intro n hn
            simp only [mkSessionLog, Option.some.injEq] at hn
            subst hn
            have h1 : (1 : Nat) ≤ j % 3 + 1 := by omega
            exact_mod_cast h1
          · exact ⟨wsFinal c s.clk s.db.nextId uid (s.db.exercises.take 3).length,
              List.mem_append_right _ (List.mem_singleton.mpr rfl), rfl⟩
          · exact ⟨e, List.take_subset 3 s.db.exercises (List.getElem?_mem he), rfl⟩

/-- Claim C8: in every store reachable through the repository
operations, every ExerciseLog row passes the `set_number ≥ 1` check
(vacuously when set_number is null, as for an SQL CHECK constraint) and
references an existing WorkoutSession row and an existing Exercise row;
and creating a log whose session_id references no existing session fails
with `ConstraintViolation`. -/
theorem c8_log_invariants (c : Nat → ℚ) (s : St) (hr : Reachable c s) :
    (∀ l ∈ s.db.exerciseLogs,
      (∀ n : Int, l.setNumber = some n → 1 ≤ n) ∧
        (∃ w ∈ s.db.sessions, w.sessionId = l.sessionId) ∧
        (∃ e ∈ s.db.exercises, e.exerciseId = l.exerciseId)) ∧
      ∀ sid eid l₀, (∀ w ∈ s.db.sessions, w.sessionId ≠ some sid) →
        createExerciseLog c s sid eid l₀ = Except.error RepoError.ConstraintViolation :=
  ⟨reachable_logInv c s hr, fun sid eid l₀ hno => createExerciseLog_dangling c s sid eid l₀ hno⟩

lemma stampedInv_grow {c : Nat → ℚ} {s : St} (h : stampedInv c s) {m : Nat}
    (hm : s.clk ≤ m) :
    (∀ u ∈ s.db.users, stampedBelow c m u.createdTimestamp u.lastEditedTimestamp) ∧
      (∀ w ∈ s.db.workoutTypes, stampedBelow c m w.createdTimestamp w.lastEditedTimestamp) ∧
      (∀ e ∈ s.db.exercises, stampedBelow c m e.createdTimestamp e.lastEditedTimestamp) ∧
      (∀ w ∈ s.db.sessions, stampedBelow c m w.createdTimestamp w.lastEditedTimestamp) ∧
      (∀ l ∈ s.db.exerciseLogs, stampedBelow c m l.createdTimestamp l.lastEditedTimestamp) := by
  obtain ⟨h1, h2, h3, h4, h5⟩ := h
  exact ⟨fun u hu => stampedBelow_mono hm (h1 u hu),
    fun w hw => stampedBelow_mono hm (h2 w hw),
    fun e he => stampedBelow_mono hm (h3 e he),
    fun w hw => stampedBelow_mono hm (h4 w hw),
    fun l hl => stampedBelow_mono hm (h5 l hl)⟩

lemma stampedBelow_fresh (c : Nat → ℚ) (k : Nat) :
    stampedBelow c (k + 2) (c k) (c (k + 1)) :=
  ⟨k, k + 1, by omega, by omega, rfl, rfl⟩

lemma reachable_stampedInv (c : Nat → ℚ) (s : St) (hr : Reachable c s) :
    stampedInv c s := by
  induction hr with
  | init =>
      refine ⟨?_, ?_, ?_, ?_, ?_⟩ <;> intro x hx <;> simp [DB.empty] at hx
  | user s un em ph _ ih =>
      obtain ⟨h1, h2, h3, h4, h5⟩ := stampedInv_grow ih (show s.clk ≤ s.clk + 2 by omega)
      refine ⟨?_, h2, h3, h4, h5⟩
      intro u hu
      rcases List.mem_append.mp hu with hold | hnew
      · exact h1 u hold
      · rw [List.mem_singleton] at hnew
        subst hnew
        exact stampedBelow_fresh c s.clk
  | seedType s _ ih =>
      obtain ⟨h1, h2, h3, h4, h5⟩ := stampedInv_grow ih (show s.clk ≤ s.clk + 2 by omega)
      refine ⟨h1, ?_, h3, h4, h5⟩
      intro w hw
      rcases List.mem_append.mp hw with hold | hnew
      · exact h2 w hold
      · rw [List.mem_singleton] at hnew
        subst hnew
        exact stampedBelow_fresh c s.clk
  | exercise s s' e _ heq ih =>
      simp only [createExercise] at heq
      split at heq
      · cases heq
        obtain ⟨h1, h2, h3, h4, h5⟩ := stampedInv_grow ih (show s.clk ≤ s.clk + 2 by omega)
        refine ⟨h1, h2, ?_, h4, h5⟩
        intro x hx
        rcases List.mem_append.mp hx with hold | hnew
        · exact h3 x hold
        · rw [List.mem_singleton] at hnew
          subst hnew
          exact stampedBelow_fresh c s.clk
      · exact absurd heq (by simp)
  | log s s' sid eid l₀ _ heq ih =>
      simp only [createExerciseLog] at heq
      split at heq
      · cases heq
        obtain ⟨h1, h2, h3, h4, h5⟩ := stampedInv_grow ih (show s.clk ≤ s.clk + 2 by omega)
        refine ⟨h1, h2, h3, h4, ?_⟩
        intro x hx
        rcases List.mem_append.mp hx with hold | hnew
        · exact h5 x hold
        · rw [List.mem_singleton] at hnew
          subst hnew
          exact stampedBelow_fresh c s.clk
      · exact absurd heq (by simp)
  | rename s i nm _ ih =>
      cases hu : s.db.users[i]? with
      | none =>
          simp only [updateUserName, hu]
          exact ih
      | some u =>
          simp only [updateUserName, hu]
          obtain ⟨h1, h2, h3, h4, h5⟩ :=
            stampedInv_grow ih (show s.clk ≤ s.clk + 1 by omega)
          refine ⟨?_, h2, h3, h4, h5⟩
          intro x hx
          rcases List.mem_or_eq_of_mem_set hx with hold | hnew
          · exact h1 x hold
          · subst hnew
            obtain ⟨i0, j0, hij, hj0, hc0, _⟩ := ih.1 u (List.getElem?_mem hu)
            exact ⟨i0, s.clk, by omega, show s.clk < s.clk + 1 by omega, hc0, rfl⟩
  | workout s uid _ ih =>
      by_cases hemp : s.db.exercises = []
      · rw [create_workout_session_empty c s uid hemp]
        exact ih
      · rw [create_workout_session_eq c s uid hemp]
        have hlen : 1 ≤ (s.db.exercises.take 3).length := by
          have : s.db.exercises.take 3 ≠ [] := by
            simp [List.take_eq_nil_iff, hemp]
          have := List.length_pos.mpr this
          omega
        obtain ⟨h1, h2, h3, h4, h5⟩ := stampedInv_grow ih
          (show s.clk ≤ s.clk + 5 + 6 * (s.db.exercises.take 3).length by omega)
        refine ⟨h1, h2, h3, ?_, ?_⟩
        · intro w hw
          rcases List.mem_append.mp hw with hold | hnew
          · exact h4 w hold
          · rw [List.mem_singleton] at hnew
            subst hnew
            exact ⟨s.clk + 2, s.clk + 3, by omega,
              show s.clk + 3 < s.clk + 5 + 6 * (s.db.exercises.take 3).length by omega,
              rfl, rfl⟩
        · intro l hl
          rcases List.mem_append.mp hl with hold | hnew
          · exact h5 l hold
          · obtain ⟨j, e, hj, _, rfl⟩ := sessionLogsAux_mem hnew
            exact ⟨s.clk + 4 + 2 * j, s.clk + 4 + 2 * j + 1, by omega,
              show s.clk + 4 + 2 * j + 1 <
                s.clk + 5 + 6 * (s.db.exercises.take 3).length by omega,
              rfl, rfl⟩

/-- Claim C9: in every store reachable through the repository
operations — creations and subsequent mutating writes included — both
timestamps of every row are populated (they are total in the model,
as the source sets both by default factory at creation) and
created_timestamp ≤ last_edited_timestamp holds on every row, given a
monotone wall clock. -/
theorem c9_timestamps (c : Nat → ℚ) (hc : Monotone c) (s : St)
    (hr : Reachable c s) : dbStampsOrdered s.db := by
  obtain ⟨h1, h2, h3, h4, h5⟩ := reachable_stampedInv c s hr
  exact ⟨fun u hu => stampedBelow_le hc (h1 u hu),
    fun w hw => stampedBelow_le hc (h2 w hw),
    fun e he => stampedBelow_le hc (h3 e he),
    fun w hw => stampedBelow_le hc (h4 w hw),
    fun l hl => stampedBelow_le hc (h5 l hl)⟩

lemma stC_ok : createExercise clk0 stB exPayloadTyped = Except.ok stC := rfl

lemma stD_reachable : Reachable clk0 stD :=
  Reachable.workout stC 1
    (Reachable.exercise stB stC exPayloadTyped
      (Reachable.seedType stA
        (Reachable.user st0 "ada" "ada at example dot com" "hash" Reachable.init))
      stC_ok)

theorem c8_log_invariants_witness :
    (∀ l ∈ stD.db.exerciseLogs,
      (∀ n : Int, l.setNumber = some n → 1 ≤ n) ∧
        (∃ w ∈ stD.db.sessions, w.sessionId = l.sessionId) ∧
        (∃ e ∈ stD.db.exercises, e.exerciseId = l.exerciseId)) ∧
      ∀ sid eid l₀, (∀ w ∈ stD.db.sessions, w.sessionId ≠ some sid) →
        createExerciseLog clk0 stD sid eid l₀ = Except.error RepoError.ConstraintViolation :=
  c8_log_invariants clk0 stD stD_reachable

theorem c9_timestamps_witness : dbStampsOrdered stD.db :=
  c9_timestamps clk0 clk0_mono stD stD_reachable

end DbDev
